import Mathlib

/-!
Verification of the access-gating and path-resolution subsystem of the
`sh-server` script repository (Go sources in `srv/`), as a shallow embedding
in Lean 4.

Modelling conventions:
* Go `string` is Lean `String` (a list of `Char`); the `strings` package
  functions used by the server are re-implemented structurally below
  (`goContains`, `goStartsWith`, `goEndsWith`, `goTrimHead`, `goToLower`,
  `goSplit`, `joinSlash`) with Go's exact semantics.
* Go `time.Time` is `Int` (seconds); `a.After(b)` is `b < a`;
  `5 * time.Minute` is `300`.
* SQLite tables are Lean lists of records; the sqlc query functions
  (`GetScriptByPath`, `GetAuthToken`, `GetFolderByPath`, ...) are `find?`
  over those lists, keyed as the SQL is.  `:one` lookups return `Option`.
* `uuid.New().String()` and `bcrypt` are external effects: fresh identifiers
  are passed in as parameters, and `bcrypt.CompareHashAndPassword` is an
  oracle parameter `bcryptOK : hash → password → Bool`.
* HTTP handlers become pure functions from a decoded request plus the
  database state to a response (and, for writers, a new database state).
  Headers other than the ones branched on are dropped.
-/

/-! ## Go `strings` helpers (embedded from the standard library semantics) -/

/-- Embeds `strings.Contains(s, sub)` on `List Char`: some suffix of `s`
starts with `sub` (true for the empty pattern, as in Go). -/
def listContainsSub : List Char → List Char → Bool
  | [], pat => pat.isEmpty
  | a :: t, pat => pat.isPrefixOf (a :: t) || listContainsSub t pat

/-- `strings.Contains`. -/
def goContains (s sub : String) : Bool :=
  listContainsSub s.data sub.data

/-- `strings.HasPrefix`. -/
def goStartsWith (s p : String) : Bool :=
  p.data.isPrefixOf s.data

/-- `strings.HasSuffix`. -/
def goEndsWith (s p : String) : Bool :=
  p.data.isSuffixOf s.data

/-- `strings.TrimPrefix(s, p)`: drop the leading occurrence of `p` when
present, otherwise return `s` unchanged. -/
def goTrimHead (s p : String) : String :=
  if p.data.isPrefixOf s.data then String.mk (s.data.drop p.data.length) else s

/-- `strings.ToLower` (ASCII-faithful). -/
def goToLower (s : String) : String :=
  String.mk (s.data.map Char.toLower)

/-- Splitting on a one-character separator, as `strings.Split` does:
`splitBy c []` is `[[]]` (Go: `Split("", sep) = [""]`). -/
def splitBy (c : Char) : List Char → List (List Char)
  | [] => [[]]
  | a :: t =>
    match splitBy c t with
    | [] => [[]]
    | h :: r => if a = c then [] :: h :: r else (a :: h) :: r

/-- `strings.Split(s, <one-char sep>)`. -/
def goSplit (c : Char) (s : String) : List String :=
  (splitBy c s.data).map String.mk

/-- `strings.Split(s, "/")`. -/
def splitSlash (s : String) : List String :=
  goSplit '/' s

/-- `strings.Split(s, "\n")`. -/
def splitLines (s : String) : List String :=
  goSplit '\n' s

/-- `strings.Join(parts, "/")`. -/
def joinSlash : List String → String
  | [] => ""
  | [x] => x
  | x :: y :: t => x ++ "/" ++ joinSlash (y :: t)

/-- The `filepath.Base` steps used by `extractName`: the maximal run of
characters after the last `'/'`. -/
def afterLastSlash (l : List Char) : List Char :=
  l.foldl (fun acc c => if c = '/' then [] else acc ++ [c]) []

/-- `filepath.Base`: `"."` for the empty path, `"/"` when the path is all
separators, otherwise the last element after trailing separators are
removed. -/
def goBase (p : String) : String :=
  if p.data = [] then "."
  else
    let trimmed := (p.data.reverse.dropWhile (fun c => c = '/')).reverse
    if trimmed = [] then "/" else String.mk (afterLastSlash trimmed)

/-- `extractName` in `handlers.go`: `filepath.Base(path)`. -/
def extractName (path : String) : String :=
  goBase path

/-! ## ContentNegotiator: `isCLI` (handlers.go) -/

/-- The fixed CLI signature list `cliPatterns` in `isCLI`. -/
def cliSignatures : List String :=
  ["curl", "wget", "httpie", "fetch", "libfetch", "aria2", "python-requests",
   "go-http-client"]

/-- Embeds `isCLI(r)`: lower-case the User-Agent, return true on any CLI
signature match; else false when Accept contains `text/html`; else true when
the (lowered) User-Agent is empty; else false. -/
def isCLI (userAgent accept : String) : Bool :=
  let ua := goToLower userAgent
  if cliSignatures.any (fun p => goContains ua p) then true
  else if goContains accept "text/html" then false
  else if ua == "" && !(goContains accept "text/html") then true
  else false

/-! ## PathValidator: `validatePath` (handlers.go) -/

/-- Character class `[a-zA-Z0-9_/.-]` of the `validPath` regular
expression. -/
def validPathChar (c : Char) : Bool :=
  ('a' ≤ c && c ≤ 'z') || ('A' ≤ c && c ≤ 'Z') || ('0' ≤ c && c ≤ '9') ||
    c == '_' || c == '/' || c == '.' || c == '-'

/-- `regexp.MustCompile("^[a-zA-Z0-9_/.-]+$").MatchString(s)`: nonempty and
every character in the class. -/
def validPathRegex (s : String) : Bool :=
  !s.data.isEmpty && s.data.all validPathChar

/-- Embeds `validatePath(path)`; `none` is a nil error, `some msg` is the
returned error's message. -/
def validatePath (path : String) : Option String :=
  if !goStartsWith path "/" then some "path must start with /"
  else if !goEndsWith path ".sh" then some "path must end with .sh"
  else if !validPathRegex path then some "path contains invalid characters"
  else none

/-- The path grammar `^/[A-Za-z0-9_/.-]+\.sh$` of the specification, as a
decomposition: a leading slash, a nonempty in-class middle, a literal `.sh`
tail. -/
def pathGrammar (p : String) : Prop :=
  ∃ w : List Char,
    w ≠ [] ∧ w.all validPathChar = true ∧ p.data = '/' :: (w ++ ['.', 's', 'h'])

/-! ## Data model (SQLite schema `001-base.sql`, records as sqlc generates) -/

/-- Row of the `scripts` table (`dbgen.Script`).  `locked` and `favorite`
stay integers as in the schema; optional columns are `Option`. -/
structure Script where
  id : String
  path : String
  name : String
  content : String
  description : Option String
  tags : Option String
  locked : Int
  passwordHash : Option String
  dangerLevel : Option Int
  requires : Option String
  examples : Option String
  favorite : Int
  createdAt : Int
  updatedAt : Int
deriving DecidableEq, Repr

/-- Row of the `folders` table (`dbgen.Folder`). -/
structure Folder where
  id : String
  path : String
  name : String
  createdAt : Int
deriving DecidableEq, Repr

/-- Row of the `auth_tokens` table (`dbgen.AuthToken`). -/
structure AuthToken where
  token : String
  scriptId : String
  expiresAt : Int
  createdAt : Int
  ipAddress : Option String
  userAgent : Option String
deriving DecidableEq, Repr

/-- Row of the `audit_log` table (the columns `CreateAuditLog` writes). -/
structure AuditEntry where
  action : String
  entityType : String
  entityId : Option String
  entityPath : Option String
  ipAddress : Option String
  userAgent : Option String
  createdAt : Int
deriving DecidableEq, Repr

/-- Row of the `script_versions` table. -/
structure ScriptVersion where
  scriptId : String
  content : String
  version : Int
  createdAt : Int
deriving DecidableEq, Repr

/-- The database state the handlers read and write. -/
structure DBState where
  scripts : List Script
  folders : List Folder
  tokens : List AuthToken
  audit : List AuditEntry
  versions : List ScriptVersion
deriving DecidableEq, Repr

/-- `GetScriptByPath` (`SELECT * FROM scripts WHERE path = ?`, `:one`);
`path` is UNIQUE so the first match is the row. -/
def findScriptByPath (scripts : List Script) (path : String) : Option Script :=
  scripts.find? (fun sc => sc.path == path)

/-- `GetScript` (`SELECT * FROM scripts WHERE id = ?`). -/
def findScriptById (scripts : List Script) (id : String) : Option Script :=
  scripts.find? (fun sc => sc.id == id)

/-- `GetAuthToken` (`SELECT * FROM auth_tokens WHERE token = ?`); `token` is
the primary key. -/
def findAuthToken (tokens : List AuthToken) (token : String) : Option AuthToken :=
  tokens.find? (fun tk => tk.token == token)

/-- `GetFolderByPath` (`SELECT * FROM folders WHERE path = ?`); `path` is
UNIQUE. -/
def findFolderByPath (folders : List Folder) (path : String) : Option Folder :=
  folders.find? (fun f => f.path == path)

/-! ## LockGate read side: `HandleScript` (handlers.go) -/

/-- Decoded inputs of a GET to a script path: the URL path, the values of
the `preview` and `token` query parameters (`""` when absent, as
`url.Values.Get` returns), and the `Authorization` header. -/
structure ScriptRequest where
  path : String
  preview : String
  tokenQuery : String
  authHeader : String
deriving DecidableEq, Repr

/-- The preview body written by the `preview=1` branch: the script's name,
its description and tags when present and nonempty, the first 20 lines of
content, and the count of elided lines. -/
structure PreviewData where
  name : String
  description : Option String
  tags : Option String
  shownLines : List String
  remaining : Nat
deriving DecidableEq, Repr

/-- Responses `HandleScript` can produce (headers beyond the branch
distinctions are dropped). -/
inductive ScriptResponse where
  | notFound
  | preview (p : PreviewData)
  | content (body : String)
  | passwordPrompt (path : String)
deriving DecidableEq, Repr

/-- The leading-slash normalization at the top of `HandleScript`. -/
def normalizePath (path : String) : String :=
  if goStartsWith path "/" then path else "/" ++ path

/-- The preview projection of the `preview=1` branch: `fmt.Fprintf` of the
name, the description and tags guarded by non-nil and nonempty, then
`min 20 (number of lines)` lines and the `... (n more lines)` trailer. -/
def previewOf (sc : Script) : PreviewData :=
  let lines := splitLines sc.content
  let maxN := if lines.length < 20 then lines.length else 20
  { name := sc.name
    description :=
      match sc.description with
      | some d => if d ≠ "" then some d else none
      | none => none
    tags :=
      match sc.tags with
      | some t => if t ≠ "" then some t else none
      | none => none
    shownLines := lines.take maxN
    remaining := lines.length - maxN }

/-- The token extraction in the locked branch: the `token` query parameter
first, else the `Authorization` header with a `Bearer ` prefix trimmed. -/
def extractGateToken (tokenQuery authHeader : String) : String :=
  if tokenQuery == "" then goTrimHead authHeader "Bearer " else tokenQuery

/-- Embeds `HandleScript`: normalize the path, look the script up, serve the
preview when `preview=1`, gate on a valid token when locked, else serve the
content. -/
def handleScript (st : DBState) (now : Int) (req : ScriptRequest) : ScriptResponse :=
  let path := normalizePath req.path
  match findScriptByPath st.scripts path with
  | none => .notFound
  | some sc =>
    if req.preview == "1" then .preview (previewOf sc)
    else if sc.locked ≠ 0 then
      let token := extractGateToken req.tokenQuery req.authHeader
      if token ≠ "" then
        match findAuthToken st.tokens token with
        | some tk =>
          if tk.scriptId = sc.id ∧ now < tk.expiresAt then .content sc.content
          else .passwordPrompt path
        | none => .passwordPrompt path
      else .passwordPrompt path
    else .content sc.content

/-! ## LockGate write side: `HandleUnlock` (handlers.go) -/

/-- The decoded unlock request body plus the request provenance the handler
records (`r.RemoteAddr`, the `User-Agent` header). -/
structure UnlockRequest where
  path : String
  password : String
  remoteAddr : String
  userAgent : String
deriving DecidableEq, Repr

/-- Responses of `HandleUnlock` after body decoding (the method and JSON
checks happen before the state in this model). -/
inductive UnlockResponse where
  | notFound
  | notLocked
  | noPasswordSet
  | unauthorized
  | ok (token : String) (expiresAt : Int)
deriving DecidableEq, Repr

/-- The audit row `HandleUnlock` appends for an attempt (`details` column is
never set by the handler). -/
def unlockAudit (action : String) (scriptId path remoteAddr userAgent : String)
    (now : Int) : AuditEntry :=
  { action := action
    entityType := "script"
    entityId := some scriptId
    entityPath := some path
    ipAddress := some remoteAddr
    userAgent := some userAgent
    createdAt := now }

/-- Embeds `HandleUnlock`: find the script, require `locked` and a stored
hash, compare via bcrypt (`bcryptOK hash password`, the oracle for
`bcrypt.CompareHashAndPassword` succeeding), then either audit the failure
and return 401, or persist one token row expiring in 5 minutes, audit the
success, and return the token.  `newToken` stands for
`uuid.New().String()`. -/
def handleUnlock (st : DBState) (bcryptOK : String → String → Bool)
    (newToken : String) (now : Int) (req : UnlockRequest) :
    DBState × UnlockResponse :=
  match findScriptByPath st.scripts req.path with
  | none => (st, .notFound)
  | some sc =>
    if sc.locked = 0 then (st, .notLocked)
    else
      match sc.passwordHash with
      | none => (st, .noPasswordSet)
      | some hash =>
        if bcryptOK hash req.password then
          let expiresAt := now + 300
          let tokenRow : AuthToken :=
            { token := newToken
              scriptId := sc.id
              expiresAt := expiresAt
              createdAt := now
              ipAddress := some req.remoteAddr
              userAgent := some req.userAgent }
          ({ st with
              tokens := st.tokens ++ [tokenRow]
              audit := st.audit ++
                [unlockAudit "UNLOCK_SUCCESS" sc.id req.path req.remoteAddr
                  req.userAgent now] },
            .ok newToken expiresAt)
        else
          ({ st with
              audit := st.audit ++
                [unlockAudit "UNLOCK_FAILED" sc.id req.path req.remoteAddr
                  req.userAgent now] },
            .unauthorized)

/-! ## CatalogBuilder flat listing: `HandleCatalog` (handlers.go) -/

/-- The `catalogEntry` struct of `HandleCatalog`: exactly path, name,
description, tags, locked.  Optional columns fall back to the zero value
`""`. -/
structure CatalogEntry where
  path : String
  name : String
  description : String
  tags : String
  locked : Bool
deriving DecidableEq, Repr

/-- One loop iteration of `HandleCatalog`. -/
def toCatalogEntry (sc : Script) : CatalogEntry :=
  { path := sc.path
    name := sc.name
    description := sc.description.getD ""
    tags := sc.tags.getD ""
    locked := sc.locked != 0 }

/-- `HandleCatalog` over the rows `ListScripts` returns. -/
def buildCatalog (scripts : List Script) : List CatalogEntry :=
  scripts.map toCatalogEntry

/-! ## Admin gate: `adminOnly` (handlers.go) -/

/-- The token `adminOnly` compares: the `X-Admin-Token` header, or when that
is empty, the `Authorization` header with any `Bearer ` prefix trimmed. -/
def adminSuppliedToken (xAdminToken authHeader : String) : String :=
  if xAdminToken == "" then goTrimHead authHeader "Bearer " else xAdminToken

/-- Whether the wrapped handler runs or the middleware answers 401. -/
inductive AdminDecision where
  | rejected
  | forwarded
deriving DecidableEq, Repr

/-- Embeds the `adminOnly` middleware around every `/api/*` route. -/
def adminOnly (adminToken xAdminToken authHeader : String) : AdminDecision :=
  let token := adminSuppliedToken xAdminToken authHeader
  if adminToken ≠ "" ∧ token ≠ adminToken then .rejected else .forwarded

/-! ## FolderSynthesizer: `ensureFolders` (api.go) -/

/-- The folder path the i-th loop iteration of `ensureFolders` targets:
`"/" + strings.Join(parts[:i], "/")`. -/
def folderPathAt (parts : List String) (i : Nat) : String :=
  "/" ++ joinSlash (parts.take i)

/-- Whether a folder row exists at a path (the `GetFolderByPath` error
check). -/
def hasFolderAt (folders : List Folder) (path : String) : Bool :=
  folders.any (fun f => f.path == path)

/-- The folder row the i-th iteration creates when absent: a generated id
(`fresh`, standing for `uuid.New().String()`), the prefix path, and
`parts[i-1]` as the name. -/
def mkFolderRow (fresh : String → String) (now : Int) (parts : List String)
    (i : Nat) : Folder :=
  { id := fresh (folderPathAt parts i)
    path := folderPathAt parts i
    name := parts.getD (i - 1) ""
    createdAt := now }

/-- One iteration of the `ensureFolders` loop: get-before-create at prefix
`i`. -/
def ensureStep (fresh : String → String) (now : Int) (parts : List String)
    (folders : List Folder) (i : Nat) : List Folder :=
  if hasFolderAt folders (folderPathAt parts i) then folders
  else folders ++ [mkFolderRow fresh now parts i]

/-- Embeds `ensureFolders(ctx, q, scriptPath)`: split the path, return
unchanged when there is at most one segment, otherwise walk the prefixes
`i = 1 .. len(parts)-1` shallowest first. -/
def ensureFolders (fresh : String → String) (now : Int) (folders : List Folder)
    (scriptPath : String) : List Folder :=
  let parts := splitSlash (goTrimHead scriptPath "/")
  if parts.length ≤ 1 then folders
  else (List.range' 1 (parts.length - 1)).foldl (ensureStep fresh now parts) folders

/-! ## Admin CRUD handlers touching folders: `APICreateScript`,
`APIUpdateScript` (api.go) -/

/-- The decoded body of `POST /api/scripts` and `PUT /api/scripts/{id}`
(`CreateScriptRequest` / `UpdateScriptRequest` have identical fields). -/
structure ScriptWriteRequest where
  path : String
  content : String
  description : String
  tags : String
  locked : Bool
  password : String
  dangerLevel : Int
  requires : String
  examples : String
deriving DecidableEq, Repr

/-- Responses of the two script-writing handlers (after JSON decoding). -/
inductive WriteResponse where
  | badRequest (msg : String)
  | notFound
  | conflict
  | created
  | updated
deriving DecidableEq, Repr

/-- The audit row the CRUD handlers append (no provenance columns). -/
def crudAudit (action : String) (id path : String) (now : Int) : AuditEntry :=
  { action := action
    entityType := "script"
    entityId := some id
    entityPath := some path
    ipAddress := none
    userAgent := none
    createdAt := now }

/-- Embeds `APICreateScript`: validate the path, hash the password when
locked, run `ensureFolders`, then insert the script (UNIQUE `path` conflict
surfaces as 409), the initial version row, and a CREATE audit row.
`hashFn` stands for `bcrypt.GenerateFromPassword`; `fresh`/`newId` for the
uuid calls. -/
def apiCreateScript (st : DBState) (hashFn fresh : String → String)
    (newId : String) (now : Int) (req : ScriptWriteRequest) :
    DBState × WriteResponse :=
  match validatePath req.path with
  | some msg => (st, .badRequest msg)
  | none =>
    let passwordHash : Option String :=
      if req.locked ∧ req.password ≠ "" then some (hashFn req.password) else none
    let st1 := { st with folders := ensureFolders fresh now st.folders req.path }
    if st1.scripts.any (fun sc => sc.path == req.path) then (st1, .conflict)
    else
      let sc : Script :=
        { id := newId
          path := req.path
          name := extractName req.path
          content := req.content
          description := some req.description
          tags := some req.tags
          locked := if req.locked then 1 else 0
          passwordHash := passwordHash
          dangerLevel := some req.dangerLevel
          requires := some req.requires
          examples := some req.examples
          favorite := 0
          createdAt := now
          updatedAt := now }
      ({ st1 with
          scripts := st1.scripts ++ [sc]
          versions := st1.versions ++
            [{ scriptId := newId, content := req.content, version := 1,
               createdAt := now }]
          audit := st1.audit ++ [crudAudit "CREATE" newId req.path now] },
        .created)

/-- The latest-version computation of `APIUpdateScript`: `ListVersions`
orders by version descending, so the head is the maximum. -/
def nextVersion (versions : List ScriptVersion) (scriptId : String) : Int :=
  let own := versions.filter (fun v => v.scriptId == scriptId)
  (own.foldl (fun acc v => if acc < v.version then v.version else acc) 0) + 1

/-- Embeds `APIUpdateScript`: validate the path, find the script by id,
compute the password hash (keep the stored one when locked with no new
password, drop it when unlocked), overwrite the row — including the path —
then add a version row when the content changed and an UPDATE audit row.
It never calls `ensureFolders`. -/
def apiUpdateScript (st : DBState) (hashFn : String → String) (now : Int)
    (id : String) (req : ScriptWriteRequest) : DBState × WriteResponse :=
  match validatePath req.path with
  | some msg => (st, .badRequest msg)
  | none =>
    match findScriptById st.scripts id with
    | none => (st, .notFound)
    | some existing =>
      let passwordHash : Option String :=
        if req.locked then
          if req.password ≠ "" then some (hashFn req.password)
          else existing.passwordHash
        else none
      let updated : Script :=
        { existing with
            path := req.path
            name := extractName req.path
            content := req.content
            description := some req.description
            tags := some req.tags
            locked := if req.locked then 1 else 0
            passwordHash := passwordHash
            dangerLevel := some req.dangerLevel
            requires := some req.requires
            examples := some req.examples
            updatedAt := now }
      let st1 := { st with
        scripts := st.scripts.map
          (fun (sc : Script) => if sc.id == id then updated else sc) }
      let st2 :=
        if existing.content ≠ req.content then
          { st1 with versions := st1.versions ++
              [({ scriptId := id, content := req.content,
                  version := nextVersion st1.versions id,
                  createdAt := now } : ScriptVersion)] }
        else st1
      ({ st2 with audit := st2.audit ++ [crudAudit "UPDATE" id req.path now] },
        .updated)

/-! ## CatalogBuilder tree: `APIGetTree` (api.go)

The Go handler builds `nodeMap` (path → node) from the root, the folder
rows, and the script rows, then attaches every non-root node to the node at
`getParentPath(path)` when that path is a key of the map, and to the root
otherwise.  Go map insertion overwrites on key collision; iteration order of
the final hierarchy pass only permutes each node's child list, so the model
fixes insertion order and exposes the (order-faithful up to permutation)
child list of each path. -/

/-- A value of `nodeMap`: the fields of `TreeNode` the construction sets
before children are attached. -/
structure TNodeData where
  id : String
  name : String
  path : String
  kind : String
  locked : Bool
deriving DecidableEq, Repr

/-- The synthetic root node. -/
def rootNodeData : TNodeData :=
  { id := "root", name := "/", path := "/", kind := "folder", locked := false }

/-- Go map assignment `m[p] = e`: overwrite when the key exists, else add. -/
def insertNode (m : List (String × TNodeData)) (p : String) (e : TNodeData) :
    List (String × TNodeData) :=
  if m.any (fun kv => kv.1 == p) then
    m.map (fun kv => if kv.1 == p then (p, e) else kv)
  else m ++ [(p, e)]

/-- The node a folder row contributes. -/
def folderNode (f : Folder) : TNodeData :=
  { id := f.id, name := f.name, path := f.path, kind := "folder", locked := false }

/-- The node a script row contributes. -/
def scriptNode (sc : Script) : TNodeData :=
  { id := sc.id, name := sc.name, path := sc.path, kind := "script",
    locked := sc.locked != 0 }

/-- The `nodeMap` of `APIGetTree` after the two insertion loops. -/
def buildNodeMap (folders : List Folder) (scripts : List Script) :
    List (String × TNodeData) :=
  let m0 : List (String × TNodeData) := [("/", rootNodeData)]
  let m1 := folders.foldl (fun m f => insertNode m f.path (folderNode f)) m0
  scripts.foldl (fun m sc => insertNode m sc.path (scriptNode sc)) m1

/-- Embeds `getParentPath`. -/
def getParentPath (path : String) : String :=
  if path = "/" then "/"
  else
    let parts := splitSlash (goTrimHead path "/")
    if parts.length ≤ 1 then "/"
    else "/" ++ joinSlash (parts.take (parts.length - 1))

/-- Key membership in the node map. -/
def mapHasPath (m : List (String × TNodeData)) (p : String) : Bool :=
  m.any (fun kv => kv.1 == p)

/-- The parent a node ends up under in the hierarchy pass: its
`getParentPath` when that is a key of the map, else the root. -/
def resolvedParent (m : List (String × TNodeData)) (p : String) : String :=
  let pp := getParentPath p
  if mapHasPath m pp then pp else "/"

/-- The children attached under the node at path `p` (as the set the Go
code produces; Go map iteration only permutes this list). -/
def treeChildren (folders : List Folder) (scripts : List Script) (p : String) :
    List TNodeData :=
  let m := buildNodeMap folders scripts
  (m.filter (fun kv => kv.1 ≠ "/" ∧ resolvedParent m kv.1 = p)).map (fun kv => kv.2)

/-! ## Shared fixtures for concrete evaluations -/

/-- A deterministic stand-in for `uuid.New().String()` in concrete runs. -/
def sampleFresh (p : String) : String :=
  "id:" ++ p

/-- A concrete bcrypt oracle for witnesses: the hash of `p` is
`"hash:" ++ p`. -/
def sampleBcrypt (hash password : String) : Bool :=
  hash == "hash:" ++ password

/-- A locked script fixture. -/
def sampleLockedScript : Script :=
  { id := "s1"
    path := "/sec/tool.sh"
    name := "tool.sh"
    content := "#!/bin/sh\necho secret"
    description := some "a locked tool"
    tags := some "sec"
    locked := 1
    passwordHash := some "hash:pw"
    dangerLevel := some 0
    requires := none
    examples := none
    favorite := 0
    createdAt := 0
    updatedAt := 0 }

/-- An unexpired token fixture for `sampleLockedScript`. -/
def sampleTokenRow : AuthToken :=
  { token := "tok-1", scriptId := "s1", expiresAt := 1000, createdAt := 0,
    ipAddress := none, userAgent := none }

/-- A second locked script, to exercise cross-script token checks. -/
def sampleOtherScript : Script :=
  { sampleLockedScript with
    id := "s2"
    path := "/sec/other.sh"
    name := "other.sh"
    content := "#!/bin/sh\necho other" }

/-- A database fixture with two locked scripts and one live token for
`s1`. -/
def sampleState : DBState :=
  { scripts := [sampleLockedScript, sampleOtherScript]
    folders := []
    tokens := [sampleTokenRow]
    audit := []
    versions := [] }

/-! ## Helper lemmas -/

theorem goToLower_eq_empty_iff {s : String} : goToLower s = "" ↔ s = "" := by
  constructor
  · intro h
    have hd : s.data.map Char.toLower = [] := congrArg String.data h
    have hnil : s.data = [] := List.map_eq_nil_iff.mp hd
    cases s with
    | mk data =>
      simp only [String.data] at hnil
      rw [hnil]
  · intro h
    rw [h]
    rfl

theorem isPrefixOf_append_self (l t : List Char) : l.isPrefixOf (l ++ t) = true := by
  induction l with
  | nil => simp [List.isPrefixOf]
  | cons a l ih => simp [List.isPrefixOf, ih]

theorem take_min_twenty {α : Type} (l : List α) :
    l.take (if l.length < 20 then l.length else 20) = l.take 20 := by
  by_cases h : l.length < 20
  · rw [if_pos h, List.take_length, List.take_of_length_le (Nat.le_of_lt h)]
  · rw [if_neg h]

/-! ## C7: content negotiation -/

/-- C7: `isCLI` classifies CLI whenever the lower-cased User-Agent contains
any fixed CLI signature, regardless of Accept; otherwise Browser when Accept
contains `text/html`; otherwise CLI when the User-Agent is empty; Browser in
all remaining cases. -/
theorem isCLI_classification (userAgent accept : String) :
    (cliSignatures.any (fun p => goContains (goToLower userAgent) p) = true →
      isCLI userAgent accept = true) ∧
    (cliSignatures.any (fun p => goContains (goToLower userAgent) p) = false →
      goContains accept "text/html" = true → isCLI userAgent accept = false) ∧
    (cliSignatures.any (fun p => goContains (goToLower userAgent) p) = false →
      goContains accept "text/html" = false → userAgent = "" →
      isCLI userAgent accept = true) ∧
    (cliSignatures.any (fun p => goContains (goToLower userAgent) p) = false →
      goContains accept "text/html" = false → userAgent ≠ "" →
      isCLI userAgent accept = false) := by
  refine ⟨?_, ?_, ?_, ?_⟩
  · intro h1
    simp [isCLI, h1]
  · intro h1 h2
    simp [isCLI, h1, h2]
  · intro h1 h2 h3
    cases h3
    simp only [isCLI, h1, h2]
    simp only [Bool.false_eq_true, if_false]
    rfl
  · intro h1 h2 h3
    have hlow : goToLower userAgent ≠ "" := fun hc => h3 (goToLower_eq_empty_iff.mp hc)
    simp [isCLI, h1, h2, hlow]

/-- C7 witness: all four branches at concrete headers; in particular a
CLI-signature User-Agent wins even when Accept asks for `text/html`. -/
theorem isCLI_classification_witness :
    isCLI "curl/8.5.0" "text/html" = true ∧
    isCLI "Mozilla/5.0" "text/html,application/xml" = false ∧
    isCLI "" "*/*" = true ∧
    isCLI "Mozilla/5.0" "*/*" = false := by
  refine ⟨?_, ?_, ?_, ?_⟩
  · exact (isCLI_classification "curl/8.5.0" "text/html").1 (by decide)
  · exact (isCLI_classification "Mozilla/5.0" "text/html,application/xml").2.1
      (by decide) (by decide)
  · exact (isCLI_classification "" "*/*").2.2.1 (by decide) (by decide) rfl
  · exact (isCLI_classification "Mozilla/5.0" "*/*").2.2.2 (by decide) (by decide)
      (by decide)

/-! ## C9: catalog projection -/

/-- C9: the catalog entry of a script carries exactly path, name,
description, tags, locked; two scripts differing only in `content` or
`password_hash` produce identical entries, and locked scripts keep their
path and name with `locked = true`. -/
theorem catalog_projection (sc : Script) (c : String) (ph : Option String) :
    toCatalogEntry { sc with content := c, passwordHash := ph } = toCatalogEntry sc ∧
    (toCatalogEntry sc).path = sc.path ∧
    (toCatalogEntry sc).name = sc.name ∧
    ((toCatalogEntry sc).locked = true ↔ sc.locked ≠ 0) ∧
    buildCatalog [sc] = [toCatalogEntry sc] := by
  refine ⟨rfl, rfl, rfl, ?_, rfl⟩
  simp [toCatalogEntry, bne_iff_ne]

/-! ## C10: admin gate -/

/-- C10: `adminOnly` rejects with 401 exactly when the configured admin
token is nonempty and the supplied token (X-Admin-Token, else the trimmed
Authorization header) differs from it; an empty configured token forwards
every request. -/
theorem adminOnly_spec (adminToken xAdminToken authHeader : String) :
    (adminOnly adminToken xAdminToken authHeader = .rejected ↔
      (adminToken ≠ "" ∧ adminSuppliedToken xAdminToken authHeader ≠ adminToken)) ∧
    (adminToken = "" → adminOnly adminToken xAdminToken authHeader = .forwarded) := by
  constructor
  · simp only [adminOnly]
    split
    · next h => simp [h]
    · next h => simp [h]
  · intro h
    simp [adminOnly, h]

/-- C10 witness: with an empty configured AdminToken, an arbitrary (even
wrong) supplied token is forwarded; with a configured token, a mismatch is
rejected. -/
theorem adminOnly_spec_witness :
    adminOnly "" "wrong" "" = AdminDecision.forwarded ∧
    adminOnly "secret" "wrong" "" = AdminDecision.rejected := by
  constructor
  · exact (adminOnly_spec "" "wrong" "").2 rfl
  · exact (adminOnly_spec "secret" "wrong" "").1.mpr ⟨by decide, by decide⟩

/-! ## C2: preview precedes the lock gate -/

/-- C2: a `preview=1` GET of a stored script's path returns the preview
(name, description, tags, the first 20 lines of content) regardless of the
`locked` flag and of any token; the preview branch runs before the lock
check. -/
theorem preview_before_lock (st : DBState) (now : Int) (req : ScriptRequest)
    (sc : Script)
    (hfind : findScriptByPath st.scripts (normalizePath req.path) = some sc)
    (hprev : req.preview = "1") :
    handleScript st now req = .preview (previewOf sc) ∧
    (previewOf sc).name = sc.name ∧
    (previewOf sc).shownLines = (splitLines sc.content).take 20 := by
  refine ⟨?_, rfl, ?_⟩
  · simp [handleScript, hfind, hprev]
  · simp only [previewOf]
    exact take_min_twenty (splitLines sc.content)

/-- C2 witness: the locked fixture script, fetched with `preview=1` and no
token, yields its preview. -/
theorem preview_before_lock_witness :
    handleScript sampleState 0
        { path := "/sec/tool.sh", preview := "1", tokenQuery := "",
          authHeader := "" } =
      .preview (previewOf sampleLockedScript) := by
  exact (preview_before_lock sampleState 0
    { path := "/sec/tool.sh", preview := "1", tokenQuery := "", authHeader := "" }
    sampleLockedScript (by decide) rfl).1

/-! ## C1: the lock gate on script fetches -/

/-- Unfolded form of `handleScript` on a locked script in a non-preview
fetch. -/
theorem handleScript_locked_unfold (st : DBState) (now : Int) (req : ScriptRequest)
    (sc : Script)
    (hfind : findScriptByPath st.scripts (normalizePath req.path) = some sc)
    (hlock : sc.locked ≠ 0) (hprev : req.preview ≠ "1") :
    handleScript st now req =
      (if extractGateToken req.tokenQuery req.authHeader ≠ "" then
        match findAuthToken st.tokens (extractGateToken req.tokenQuery req.authHeader) with
        | some tk =>
          if tk.scriptId = sc.id ∧ now < tk.expiresAt then .content sc.content
          else .passwordPrompt (normalizePath req.path)
        | none => .passwordPrompt (normalizePath req.path)
      else .passwordPrompt (normalizePath req.path)) := by
  simp [handleScript, hfind, hprev, hlock]

/-- C1: a non-preview GET of a locked script's path serves the script's
content iff a token was supplied (query parameter first, then the trimmed
Authorization header) that resolves to a stored AuthToken row whose
`script_id` equals the script's id and whose `expires_at` is strictly in the
future; every other case yields the password-prompt script, and a token
stored for a different script always yields the prompt. -/
theorem lockGate_spec (st : DBState) (now : Int) (req : ScriptRequest)
    (sc : Script)
    (hfind : findScriptByPath st.scripts (normalizePath req.path) = some sc)
    (hlock : sc.locked ≠ 0) (hprev : req.preview ≠ "1") :
    (handleScript st now req = .content sc.content ↔
      (extractGateToken req.tokenQuery req.authHeader ≠ "" ∧
        ∃ tk : AuthToken,
          findAuthToken st.tokens (extractGateToken req.tokenQuery req.authHeader) =
            some tk ∧
          tk.scriptId = sc.id ∧ now < tk.expiresAt)) ∧
    (handleScript st now req ≠ .content sc.content →
      handleScript st now req = .passwordPrompt (normalizePath req.path)) ∧
    (∀ tk : AuthToken,
      findAuthToken st.tokens (extractGateToken req.tokenQuery req.authHeader) =
          some tk →
      tk.scriptId ≠ sc.id →
      handleScript st now req = .passwordPrompt (normalizePath req.path)) := by
  rw [handleScript_locked_unfold st now req sc hfind hlock hprev]
  by_cases htok : extractGateToken req.tokenQuery req.authHeader = ""
  · simp [htok]
  · rw [if_pos htok]
    cases hfa : findAuthToken st.tokens (extractGateToken req.tokenQuery req.authHeader) with
    | none => simp [hfa]
    | some tk =>
      dsimp only
      by_cases hv : tk.scriptId = sc.id ∧ now < tk.expiresAt
      · refine ⟨?_, ?_, ?_⟩
        · rw [if_pos hv]
          simp only [true_iff]
          exact ⟨htok, tk, rfl, hv⟩
        · intro h
          rw [if_pos hv] at h
          exact absurd rfl h
        · intro tk' hfa' hne
          rw [Option.some_inj] at hfa'
          exact absurd (hfa' ▸ hv.1) hne
      · refine ⟨?_, ?_, ?_⟩
        · rw [if_neg hv]
          simp only [reduceCtorEq, false_iff, not_and]
          intro _ ⟨tk', hfa', hv'⟩
          rw [Option.some_inj] at hfa'
          exact hv (hfa' ▸ hv')
        · intro _
          rw [if_neg hv]
        · intro _ _ _
          rw [if_neg hv]

/-- C1 witness: with the live token for `s1`, the locked script is served;
the same token against script `s2` yields the password prompt, as does a
wrong token. -/
theorem lockGate_spec_witness :
    handleScript sampleState 10
        { path := "/sec/tool.sh", preview := "", tokenQuery := "tok-1",
          authHeader := "" } =
      .content "#!/bin/sh\necho secret" ∧
    handleScript sampleState 10
        { path := "/sec/other.sh", preview := "", tokenQuery := "tok-1",
          authHeader := "" } =
      .passwordPrompt "/sec/other.sh" ∧
    handleScript sampleState 10
        { path := "/sec/tool.sh", preview := "", tokenQuery := "",
          authHeader := "Bearer bogus" } =
      .passwordPrompt "/sec/tool.sh" := by
  refine ⟨?_, ?_, ?_⟩
  · exact (lockGate_spec sampleState 10
      { path := "/sec/tool.sh", preview := "", tokenQuery := "tok-1", authHeader := "" }
      sampleLockedScript (by decide) (by decide) (by decide)).1.mpr
      ⟨by decide, sampleTokenRow, by decide, rfl, by decide⟩
  · exact (lockGate_spec sampleState 10
      { path := "/sec/other.sh", preview := "", tokenQuery := "tok-1", authHeader := "" }
      sampleOtherScript (by decide) (by decide) (by decide)).2.2
      sampleTokenRow (by decide) (by decide)
  · have h := (lockGate_spec sampleState 10
      { path := "/sec/tool.sh", preview := "", tokenQuery := "", authHeader := "Bearer bogus" }
      sampleLockedScript (by decide) (by decide) (by decide)).2.1
    exact h (by decide)

/-! ## C5: password verification and token issuance -/

/-- C5: against a locked script with a stored hash, a failed bcrypt
comparison appends exactly one UNLOCK_FAILED audit row, creates no token,
and answers 401; a successful comparison persists exactly one AuthToken row
expiring at now + 5 minutes, appends exactly one UNLOCK_SUCCESS audit row,
and answers with that token and expiry. -/
theorem unlock_spec (st : DBState) (bcryptOK : String → String → Bool)
    (newToken : String) (now : Int) (req : UnlockRequest) (sc : Script)
    (hash : String)
    (hfind : findScriptByPath st.scripts req.path = some sc)
    (hlock : sc.locked ≠ 0) (hhash : sc.passwordHash = some hash) :
    (bcryptOK hash req.password = false →
      handleUnlock st bcryptOK newToken now req =
        ({ st with
            audit := st.audit ++
              [unlockAudit "UNLOCK_FAILED" sc.id req.path req.remoteAddr
                req.userAgent now] },
          .unauthorized)) ∧
    (bcryptOK hash req.password = true →
      handleUnlock st bcryptOK newToken now req =
        ({ st with
            tokens := st.tokens ++
              [{ token := newToken
                 scriptId := sc.id
                 expiresAt := now + 300
                 createdAt := now
                 ipAddress := some req.remoteAddr
                 userAgent := some req.userAgent }]
            audit := st.audit ++
              [unlockAudit "UNLOCK_SUCCESS" sc.id req.path req.remoteAddr
                req.userAgent now] },
          .ok newToken (now + 300))) := by
  constructor
  · intro hfail
    simp [handleUnlock, hfind, hlock, hhash, hfail]
  · intro hok
    simp [handleUnlock, hfind, hlock, hhash, hok]

/-- C5 witness: a wrong password yields 401 with one UNLOCK_FAILED row and
no new token; the correct password yields one token row expiring at
now + 300 and one UNLOCK_SUCCESS row. -/
theorem unlock_spec_witness :
    (handleUnlock sampleState sampleBcrypt "tok-new" 10
        { path := "/sec/tool.sh", password := "bad", remoteAddr := "1.2.3.4",
          userAgent := "curl/8" }).2 = .unauthorized ∧
    (handleUnlock sampleState sampleBcrypt "tok-new" 10
        { path := "/sec/tool.sh", password := "bad", remoteAddr := "1.2.3.4",
          userAgent := "curl/8" }).1.tokens = sampleState.tokens ∧
    (handleUnlock sampleState sampleBcrypt "tok-new" 10
        { path := "/sec/tool.sh", password := "bad", remoteAddr := "1.2.3.4",
          userAgent := "curl/8" }).1.audit =
      [unlockAudit "UNLOCK_FAILED" "s1" "/sec/tool.sh" "1.2.3.4" "curl/8" 10] ∧
    (handleUnlock sampleState sampleBcrypt "tok-new" 10
        { path := "/sec/tool.sh", password := "pw", remoteAddr := "1.2.3.4",
          userAgent := "curl/8" }).2 = .ok "tok-new" 310 := by
  have hfail := (unlock_spec sampleState sampleBcrypt "tok-new" 10
    { path := "/sec/tool.sh", password := "bad", remoteAddr := "1.2.3.4",
      userAgent := "curl/8" }
    sampleLockedScript "hash:pw" (by decide) (by decide) rfl).1 (by decide)
  have hok := (unlock_spec sampleState sampleBcrypt "tok-new" 10
    { path := "/sec/tool.sh", password := "pw", remoteAddr := "1.2.3.4",
      userAgent := "curl/8" }
    sampleLockedScript "hash:pw" (by decide) (by decide) rfl).2 (by decide)
  refine ⟨?_, ?_, ?_, ?_⟩
  · rw [hfail]
  · rw [hfail]
  · rw [hfail]
    rfl
  · rw [hok]
    decide

/-! ## C6: path validation -/

/-- C6 (amended): `validatePath` checks, in order: a missing leading `/` is
itself a failure (no prepending happens inside the validator); then failure
exactly when the path does not end in `.sh`; then failure exactly when the
regex `^[a-zA-Z0-9_/.-]+$` does not match; and every path matching the
grammar `^/[A-Za-z0-9_/.-]+\.sh$` validates successfully. -/
theorem validatePath_spec (p : String) :
    (goStartsWith p "/" = false →
      validatePath p = some "path must start with /") ∧
    (goStartsWith p "/" = true →
      (validatePath p = some "path must end with .sh" ↔
        goEndsWith p ".sh" = false)) ∧
    (goStartsWith p "/" = true → goEndsWith p ".sh" = true →
      (validatePath p = some "path contains invalid characters" ↔
        validPathRegex p = false)) ∧
    (pathGrammar p → validatePath p = none) := by
  refine ⟨?_, ?_, ?_, ?_⟩
  · intro h
    simp [validatePath, h]
  · intro hpre
    by_cases hsuf : goEndsWith p ".sh" = true
    · simp only [validatePath, hpre, hsuf, Bool.not_true, Bool.false_eq_true,
        if_false]
      constructor
      · intro h
        split at h
        · exact absurd (Option.some_inj.mp h) (by decide)
        · exact absurd h (by simp)
      · intro h
        exact absurd h (by decide)
    · have hsuf' : goEndsWith p ".sh" = false := by
        simpa using hsuf
      simp [validatePath, hpre, hsuf']
  · intro hpre hsuf
    simp only [validatePath, hpre, hsuf, Bool.not_true, Bool.false_eq_true,
      if_false]
    constructor
    · intro h
      split at h
      · next hreg =>
        simpa using hreg
      · exact absurd h (by simp)
    · intro h
      simp [h]
  · intro hg
    obtain ⟨w, hne, hall, hdata⟩ := hg
    have h1 : goStartsWith p "/" = true := by
      unfold goStartsWith
      rw [hdata]
      simp [List.isPrefixOf]
    have h2 : goEndsWith p ".sh" = true := by
      have hrev : p.data.reverse = ['h', 's', '.'] ++ (w.reverse ++ ['/']) := by
        rw [hdata]
        simp
      unfold goEndsWith List.isSuffixOf
      rw [hrev]
      exact isPrefixOf_append_self ['h', 's', '.'] (w.reverse ++ ['/'])
    have h3 : validPathRegex p = true := by
      unfold validPathRegex
      rw [hdata]
      simp only [List.isEmpty_cons, Bool.not_false, Bool.true_and,
        List.all_cons, List.all_append, hall]
      decide
    simp [validatePath, h1, h2, h3]

/-- C6 counterexample: a path lacking the leading slash is rejected by
`validatePath` (the claim's rule (1) says it would be prepended and
validation would continue, which would accept `a.sh` since `/a.sh` is
valid). -/
theorem validatePath_no_auto_slash :
    validatePath "a.sh" = some "path must start with /" ∧
    validatePath "/a.sh" = none := by
  constructor
  · rfl
  · rfl

/-- C6 witness: a concrete grammar-conforming path validates. -/
theorem validatePath_spec_witness : validatePath "/tools/x.sh" = none := by
  exact (validatePath_spec "/tools/x.sh").2.2.2
    ⟨"tools/x".data, by decide, by decide, rfl⟩

/-! ## C8: folder synthesis is complete over prefixes and idempotent -/

theorem ensureStep_preserves (fresh : String → String) (now : Int)
    (parts : List String) (fs : List Folder) (i : Nat) (p : String)
    (h : hasFolderAt fs p = true) :
    hasFolderAt (ensureStep fresh now parts fs i) p = true := by
  unfold ensureStep
  split
  · exact h
  · simp only [hasFolderAt, List.any_append] at *
    simp [h]

theorem ensureStep_target (fresh : String → String) (now : Int)
    (parts : List String) (fs : List Folder) (i : Nat) :
    hasFolderAt (ensureStep fresh now parts fs i) (folderPathAt parts i) = true := by
  unfold ensureStep
  split
  · next h => exact h
  · simp [hasFolderAt, List.any_append, mkFolderRow]

theorem ensureLoop_preserves (fresh : String → String) (now : Int)
    (parts : List String) (is : List Nat) (fs : List Folder) (p : String)
    (h : hasFolderAt fs p = true) :
    hasFolderAt (is.foldl (ensureStep fresh now parts) fs) p = true := by
  induction is generalizing fs with
  | nil => exact h
  | cons j is ih =>
    rw [List.foldl_cons]
    exact ih (ensureStep fresh now parts fs j)
      (ensureStep_preserves fresh now parts fs j p h)

theorem ensureLoop_covers (fresh : String → String) (now : Int)
    (parts : List String) (is : List Nat) (fs : List Folder) :
    ∀ i ∈ is,
      hasFolderAt (is.foldl (ensureStep fresh now parts) fs)
        (folderPathAt parts i) = true := by
  induction is generalizing fs with
  | nil => intro i hi; cases hi
  | cons j is ih =>
    intro i hi
    rw [List.foldl_cons]
    rcases List.mem_cons.mp hi with hij | hmem
    · rw [hij]
      exact ensureLoop_preserves fresh now parts is _ _
        (ensureStep_target fresh now parts fs j)
    · exact ih (ensureStep fresh now parts fs j) i hmem

theorem ensureLoop_noop (fresh : String → String) (now : Int)
    (parts : List String) (is : List Nat) (fs : List Folder)
    (h : ∀ i ∈ is, hasFolderAt fs (folderPathAt parts i) = true) :
    is.foldl (ensureStep fresh now parts) fs = fs := by
  induction is with
  | nil => rfl
  | cons j is ih =>
    rw [List.foldl_cons]
    have hstep : ensureStep fresh now parts fs j = fs := by
      unfold ensureStep
      rw [if_pos (h j (List.mem_cons_self j is))]
    rw [hstep]
    exact ih (fun i hi => h i (List.mem_cons_of_mem j hi))

theorem ensureLoop_mem (fresh : String → String) (now : Int)
    (parts : List String) (is : List Nat) (fs : List Folder) (f : Folder)
    (h : f ∈ is.foldl (ensureStep fresh now parts) fs) :
    f ∈ fs ∨ ∃ i ∈ is, f = mkFolderRow fresh now parts i := by
  induction is generalizing fs with
  | nil => exact Or.inl h
  | cons j is ih =>
    rw [List.foldl_cons] at h
    rcases ih (ensureStep fresh now parts fs j) h with hin | ⟨i, hi, hf⟩
    · unfold ensureStep at hin
      split at hin
      · exact Or.inl hin
      · rcases List.mem_append.mp hin with hfs | hnew
        · exact Or.inl hfs
        · exact Or.inr ⟨j, List.mem_cons_self j is,
            List.mem_singleton.mp hnew⟩
    · exact Or.inr ⟨i, List.mem_cons_of_mem j hi, hf⟩

/-- C8: on a script path with at least one directory segment,
`ensureFolders` leaves a folder row at every proper prefix (indices
`1 .. len(parts)-1`, shallowest first); every row it adds is a
`mkFolderRow` — whose name is the prefix's own last segment
`parts[i-1]` — and a second invocation on the resulting state creates
nothing (idempotence). -/
theorem ensureFolders_spec (fresh fresh' : String → String) (now now' : Int)
    (fs : List Folder) (p : String)
    (hdeep : ¬ (splitSlash (goTrimHead p "/")).length ≤ 1) :
    (∀ i ∈ List.range' 1 ((splitSlash (goTrimHead p "/")).length - 1),
      hasFolderAt (ensureFolders fresh now fs p)
        (folderPathAt (splitSlash (goTrimHead p "/")) i) = true) ∧
    (∀ f ∈ ensureFolders fresh now fs p,
      f ∈ fs ∨
        ∃ i ∈ List.range' 1 ((splitSlash (goTrimHead p "/")).length - 1),
          f = mkFolderRow fresh now (splitSlash (goTrimHead p "/")) i) ∧
    ensureFolders fresh' now' (ensureFolders fresh now fs p) p =
      ensureFolders fresh now fs p := by
  have hunfold : ∀ (g : String → String) (t : Int) (base : List Folder),
      ensureFolders g t base p =
        (List.range' 1 ((splitSlash (goTrimHead p "/")).length - 1)).foldl
          (ensureStep g t (splitSlash (goTrimHead p "/"))) base := by
    intro g t base
    unfold ensureFolders
    rw [if_neg hdeep]
  refine ⟨?_, ?_, ?_⟩
  · rw [hunfold]
    exact ensureLoop_covers fresh now (splitSlash (goTrimHead p "/")) _ fs
  · rw [hunfold]
    intro f hf
    exact ensureLoop_mem fresh now (splitSlash (goTrimHead p "/")) _ fs f hf
  · rw [hunfold fresh' now', hunfold fresh now]
    apply ensureLoop_noop
    intro i hi
    exact ensureLoop_covers fresh now (splitSlash (goTrimHead p "/"))
      (List.range' 1 ((splitSlash (goTrimHead p "/")).length - 1)) fs i hi

/-- C8 witness: `ensureFolders` on `/a/b/c.sh` over an empty folder table
creates exactly `/a` and `/a/b`, and a second run changes nothing. -/
theorem ensureFolders_spec_witness :
    hasFolderAt (ensureFolders sampleFresh 0 [] "/a/b/c.sh")
      (folderPathAt (splitSlash (goTrimHead "/a/b/c.sh" "/")) 1) = true ∧
    hasFolderAt (ensureFolders sampleFresh 0 [] "/a/b/c.sh")
      (folderPathAt (splitSlash (goTrimHead "/a/b/c.sh" "/")) 2) = true ∧
    (ensureFolders sampleFresh 0 [] "/a/b/c.sh").map (fun f => f.path) =
      ["/a", "/a/b"] ∧
    ensureFolders sampleFresh 0 (ensureFolders sampleFresh 0 [] "/a/b/c.sh")
        "/a/b/c.sh" =
      ensureFolders sampleFresh 0 [] "/a/b/c.sh" := by
  have h := ensureFolders_spec sampleFresh sampleFresh 0 0 [] "/a/b/c.sh"
    (by decide)
  exact ⟨h.1 1 (by decide), h.1 2 (by decide), by decide, h.2.2⟩

/-! ## C4: folder synthesis on the write paths -/

/-- A create request under `/a/b/`, for concrete runs. -/
def sampleCreateReq : ScriptWriteRequest :=
  { path := "/a/b/new.sh"
    content := "#!/bin/sh\necho new"
    description := ""
    tags := ""
    locked := false
    password := ""
    dangerLevel := 0
    requires := ""
    examples := "" }

/-- An update request that moves script `s1` to `/a/b/x.sh`. -/
def sampleMoveReq : ScriptWriteRequest :=
  { path := "/a/b/x.sh"
    content := "#!/bin/sh\necho secret"
    description := ""
    tags := ""
    locked := false
    password := ""
    dangerLevel := 0
    requires := ""
    examples := "" }

/-- C4 counterexample: moving `s1` from `/sec/tool.sh` to `/a/b/x.sh` via
`APIUpdateScript` succeeds and changes the stored path, yet no Folder record
exists afterwards at `/a` or `/a/b` — the handler never re-runs
`ensureFolders`. -/
theorem update_no_folder_sync_counterexample :
    (apiUpdateScript sampleState sampleFresh 5 "s1" sampleMoveReq).2 =
      .updated ∧
    (findScriptById
        ((apiUpdateScript sampleState sampleFresh 5 "s1" sampleMoveReq).1).scripts
        "s1").map (fun sc => sc.path) = some "/a/b/x.sh" ∧
    hasFolderAt
        ((apiUpdateScript sampleState sampleFresh 5 "s1" sampleMoveReq).1).folders
        "/a" = false ∧
    hasFolderAt
        ((apiUpdateScript sampleState sampleFresh 5 "s1" sampleMoveReq).1).folders
        "/a/b" = false := by
  refine ⟨?_, ?_, ?_, ?_⟩ <;> decide

/-- C4 (amended): `APIUpdateScript` leaves the folders table unchanged on
every input, so a move does not re-run the folder synthesizer; only
`APICreateScript` runs `ensureFolders`, leaving a folder row at every
proper ancestor prefix of a validly created path. -/
theorem folders_on_write (st : DBState) (hashFn fresh : String → String)
    (newId : String) (now : Int) (id : String) (req : ScriptWriteRequest) :
    ((apiUpdateScript st hashFn now id req).1).folders = st.folders ∧
    (validatePath req.path = none →
      ((apiCreateScript st hashFn fresh newId now req).1).folders =
        ensureFolders fresh now st.folders req.path) ∧
    (validatePath req.path = none →
      ¬ (splitSlash (goTrimHead req.path "/")).length ≤ 1 →
      ∀ i ∈ List.range' 1 ((splitSlash (goTrimHead req.path "/")).length - 1),
        hasFolderAt ((apiCreateScript st hashFn fresh newId now req).1).folders
          (folderPathAt (splitSlash (goTrimHead req.path "/")) i) = true) := by
  have hupd : ((apiUpdateScript st hashFn now id req).1).folders = st.folders := by
    unfold apiUpdateScript
    cases hv : validatePath req.path with
    | some msg => rfl
    | none =>
      cases hf : findScriptById st.scripts id with
      | none => rfl
      | some existing =>
        dsimp only
        split <;> rfl
  have hcre : validatePath req.path = none →
      ((apiCreateScript st hashFn fresh newId now req).1).folders =
        ensureFolders fresh now st.folders req.path := by
    intro hv
    unfold apiCreateScript
    rw [hv]
    dsimp only
    split <;> rfl
  refine ⟨hupd, hcre, ?_⟩
  intro hv hdeep i hi
  rw [hcre hv]
  unfold ensureFolders
  rw [if_neg hdeep]
  exact ensureLoop_covers fresh now (splitSlash (goTrimHead req.path "/"))
    (List.range' 1 ((splitSlash (goTrimHead req.path "/")).length - 1))
    st.folders i hi

/-- C4 witness: an update leaves the fixture's folder table unchanged, while
a create under `/a/b/` synthesizes the `/a` prefix folder. -/
theorem folders_on_write_witness :
    ((apiUpdateScript sampleState sampleFresh 5 "s1" sampleMoveReq).1).folders =
      sampleState.folders ∧
    ((apiCreateScript sampleState sampleFresh sampleFresh "s9" 5
        sampleCreateReq).1).folders =
      ensureFolders sampleFresh 5 sampleState.folders "/a/b/new.sh" ∧
    hasFolderAt
        ((apiCreateScript sampleState sampleFresh sampleFresh "s9" 5
            sampleCreateReq).1).folders
        (folderPathAt (splitSlash (goTrimHead "/a/b/new.sh" "/")) 1) = true := by
  have h := folders_on_write sampleState sampleFresh sampleFresh "s9" 5 "s1"
    sampleCreateReq
  have hu := (folders_on_write sampleState sampleFresh sampleFresh "s9" 5 "s1"
    sampleMoveReq).1
  exact ⟨hu, h.2.1 (by decide), h.2.2 (by decide) (by decide) 1 (by decide)⟩

/-! ## C3: tree synthesis -/

theorem insertNode_mem (m : List (String × TNodeData)) (q : String)
    (e : TNodeData) (kv : String × TNodeData) (h : kv ∈ insertNode m q e) :
    kv ∈ m ∨ kv = (q, e) := by
  unfold insertNode at h
  split at h
  · rcases List.mem_map.mp h with ⟨kv', hkv', heq⟩
    by_cases hq : (kv'.1 == q) = true
    · rw [if_pos hq] at heq
      exact Or.inr heq.symm
    · rw [if_neg hq] at heq
      exact Or.inl (heq ▸ hkv')
  · rcases List.mem_append.mp h with hm | hnew
    · exact Or.inl hm
    · exact Or.inr (List.mem_singleton.mp hnew)

theorem foldl_insert_mem {α : Type} (key : α → String) (val : α → TNodeData)
    (xs : List α) (m : List (String × TNodeData)) (kv : String × TNodeData)
    (h : kv ∈ xs.foldl (fun acc x => insertNode acc (key x) (val x)) m) :
    kv ∈ m ∨ ∃ x ∈ xs, kv = (key x, val x) := by
  induction xs generalizing m with
  | nil => exact Or.inl h
  | cons x xs ih =>
    rw [List.foldl_cons] at h
    rcases ih (insertNode m (key x) (val x)) h with hin | ⟨y, hy, hkv⟩
    · rcases insertNode_mem m (key x) (val x) kv hin with hm | heq
      · exact Or.inl hm
      · exact Or.inr ⟨x, List.mem_cons_self x xs, heq⟩
    · exact Or.inr ⟨y, List.mem_cons_of_mem x hy, hkv⟩

/-- The spec example's folder rows `/a` and `/a/b`. -/
def exFolders : List Folder :=
  [{ id := "f1", path := "/a", name := "a", createdAt := 0 },
   { id := "f2", path := "/a/b", name := "b", createdAt := 0 }]

/-- A script row with only tree-relevant fields populated. -/
def plainScript (id path name : String) : Script :=
  { id := id
    path := path
    name := name
    content := ""
    description := none
    tags := none
    locked := 0
    passwordHash := none
    dangerLevel := none
    requires := none
    examples := none
    favorite := 0
    createdAt := 0
    updatedAt := 0 }

/-- The spec example's script rows `/a/b/c.sh` and `/x.sh`. -/
def exScripts : List Script :=
  [plainScript "s-c" "/a/b/c.sh" "c.sh", plainScript "s-x" "/x.sh" "x.sh"]

/-- C3 counterexample: with script `/a/b/c.sh` and no folder rows,
`APIGetTree` creates no node at `/a` or `/a/b`; the script node hangs
directly off the root, contradicting the claim that intermediate folder
nodes are created by decomposing the script's path. -/
theorem tree_no_implied_nodes_counterexample :
    mapHasPath (buildNodeMap [] [plainScript "s-c" "/a/b/c.sh" "c.sh"]) "/a" =
      false ∧
    mapHasPath (buildNodeMap [] [plainScript "s-c" "/a/b/c.sh" "c.sh"]) "/a/b" =
      false ∧
    (treeChildren [] [plainScript "s-c" "/a/b/c.sh" "c.sh"] "/").map
        (fun n => n.path) =
      ["/a/b/c.sh"] := by
  refine ⟨?_, ?_, ?_⟩ <;> decide

/-- C3 (amended): every node of the built map is the synthetic root, an
explicit folder row's node, or a script row's node — `APIGetTree` never
synthesizes intermediate nodes from script-path decomposition; a node whose
parent path is absent from the map attaches directly under the root.  On the
spec's example (folders `/a`, `/a/b` explicitly present) the tree is as
described, with no duplicate node at any path. -/
theorem tree_build_spec :
    (∀ (folders : List Folder) (scripts : List Script)
        (kv : String × TNodeData),
      kv ∈ buildNodeMap folders scripts →
      kv = ("/", rootNodeData) ∨
        (∃ f ∈ folders, kv = (f.path, folderNode f)) ∨
        (∃ sc ∈ scripts, kv = (sc.path, scriptNode sc))) ∧
    (treeChildren exFolders exScripts "/").map (fun n => n.path) =
      ["/a", "/x.sh"] ∧
    (treeChildren exFolders exScripts "/a").map (fun n => n.path) = ["/a/b"] ∧
    (treeChildren exFolders exScripts "/a/b").map (fun n => n.path) =
      ["/a/b/c.sh"] ∧
    ((buildNodeMap exFolders exScripts).map (fun kv => kv.1)).Nodup := by
  refine ⟨?_, by decide, by decide, by decide, by decide⟩
  intro folders scripts kv h
  unfold buildNodeMap at h
  rcases foldl_insert_mem (fun sc => sc.path) scriptNode scripts _ kv h with
    h1 | ⟨sc, hsc, hkv⟩
  · rcases foldl_insert_mem (fun f => f.path) folderNode folders _ kv h1 with
      h0 | ⟨f, hf, hkv⟩
    · exact Or.inl (List.mem_singleton.mp h0)
    · exact Or.inr (Or.inl ⟨f, hf, hkv⟩)
  · exact Or.inr (Or.inr ⟨sc, hsc, hkv⟩)

/-- C3 witness: the script node at `/a/b/c.sh` in the example map is indeed
accounted for by a script row. -/
theorem tree_build_spec_witness :
    ("/a/b/c.sh", scriptNode (plainScript "s-c" "/a/b/c.sh" "c.sh")) =
      ("/", rootNodeData) ∨
    (∃ f ∈ exFolders,
      ("/a/b/c.sh", scriptNode (plainScript "s-c" "/a/b/c.sh" "c.sh")) =
        (f.path, folderNode f)) ∨
    (∃ sc ∈ exScripts,
      ("/a/b/c.sh", scriptNode (plainScript "s-c" "/a/b/c.sh" "c.sh")) =
        (sc.path, scriptNode sc)) := by
  exact tree_build_spec.1 exFolders exScripts _ (by decide)
